import Mathlib

/-!
# Verification of the spreadsheet order-report tool

A shallow embedding of `spreadsheet.go` (package `main` of
AppliedGo/spreadsheet).  The tool reads a semicolon-separated CSV of order
rows, appends a per-row `Total` column (unit price times quantity, computed
in integer cents), appends two summary rows (grand total and ball-pen
count), and writes the result as comma-separated CSV.

Modelling conventions:
* A table is a `List (List String)`, mirroring Go's `[][]string`.
* Go's `int` is modelled as unbounded `Int`; `strconv.Atoi`'s range check
  (values outside the 64-bit range) is out of scope, so `atoi` reports only
  syntactic failures.
* `log.Fatalf` (process abort) is modelled as `Except.error (Fail.fatal msg)`;
  a Go runtime panic from an out-of-range slice index is `Fail.panic`.
* `fmt.Sprintf "%d.%d"` and `fmt.Sprint` on integers are modelled with
  `toString : Int → String`; Go's `/` on `int` truncates toward zero, which
  is `Int.tdiv`.
* The error string produced by `strconv.Atoi` is modelled without Go's
  quoting of the offending input (`atoiErr`).
-/

namespace Spreadsheet

/-- Models `strings.Replace(s, ".", "", -1)`: removes every occurrence of
the one-character pattern `"."` from `s`. -/
def stripDots (s : String) : String :=
  String.mk (s.data.filter (fun c => c != '.'))

/-- The numeric value of a decimal digit character, `none` otherwise. -/
def digitVal (c : Char) : Option Nat :=
  if '0' ≤ c ∧ c ≤ '9' then some (c.toNat - '0'.toNat) else none

/-- Accumulator loop of decimal parsing: fails on the first non-digit. -/
def parseDigitsAux : List Char → Nat → Option Nat
  | [], acc => some acc
  | c :: cs, acc =>
    match digitVal c with
    | none => none
    | some d => parseDigitsAux cs (acc * 10 + d)

/-- Parse a non-empty all-digit character list as a natural number. -/
def parseDigits (cs : List Char) : Option Nat :=
  match cs with
  | [] => none
  | _ :: _ => parseDigitsAux cs 0

/-- Models `strconv.Atoi`: an optional sign followed by at least one
decimal digit, nothing else.  Go's 64-bit range check is out of scope
(Go `int` is modelled as unbounded `Int`). -/
def atoi (s : String) : Option Int :=
  match s.data with
  | '+' :: cs => (parseDigits cs).map (fun n => (n : Int))
  | '-' :: cs => (parseDigits cs).map (fun n => -(n : Int))
  | cs => (parseDigits cs).map (fun n => (n : Int))

/-- Models the text of the error returned by `strconv.Atoi` on a
syntactically invalid input (Go quotes the input; the quoting is omitted). -/
def atoiErr (input : String) : String :=
  "strconv.Atoi: parsing " ++ input ++ ": invalid syntax"

/-- How a run of `calculate` can abort: `fatal` models `log.Fatalf`
(message written, process exits), `panic` models a Go runtime panic from
indexing a row that is too short. -/
inductive Fail where
  | fatal (msg : String)
  | panic
  deriving DecidableEq, Repr

/-- Go slice indexing `r[j]`: the cell when it exists, a runtime panic
otherwise. -/
def getCell (r : List String) (j : Nat) : Except Fail String :=
  match r.get? j with
  | some s => .ok s
  | none => .error .panic

/-- The per-data-row body of `calculate`'s loop (source lines 206–224):
reads `item := rows[i][2]`, parses the price from column 3 with the decimal
point stripped, parses the quantity from column 4, and yields
`(price * qty, qty, item)`.  Each failed parse is the corresponding
`log.Fatalf` with the item name in the message. -/
def rowTotal (r : List String) : Except Fail (Int × Int × String) :=
  match getCell r 2 with
  | .error e => .error e
  | .ok item =>
    match getCell r 3 with
    | .error e => .error e
    | .ok priceStr =>
      match atoi (stripDots priceStr) with
      | none => .error (.fatal ("Cannot retrieve price of " ++ item ++ ": " ++ atoiErr (stripDots priceStr) ++ "\n"))
      | some price =>
        match getCell r 4 with
        | .error e => .error e
        | .ok qtyStr =>
          match atoi qtyStr with
          | none => .error (.fatal ("Cannot retrieve quantity of " ++ item ++ ": " ++ atoiErr qtyStr ++ "\n"))
          | some qty => .ok (price * qty, qty, item)

/-- Models `intToFloatString` (source lines 248–252): `intgr := n / 100`
(Go `/` truncates toward zero, i.e. `Int.tdiv`), `frac := n - intgr*100`,
result `fmt.Sprintf("%d.%d", intgr, frac)`. -/
def intToFloatString (n : Int) : String :=
  toString (Int.tdiv n 100) ++ "." ++ toString (n - Int.tdiv n 100 * 100)

/-- The data-row portion of `calculate`'s loop: walks the rows after the
header carrying the running `sum` and ball-pen count `nb`, extends each row
with its formatted total, and returns the extended rows together with the
final accumulators.  The first failing row aborts the whole run, exactly as
the `log.Fatalf` calls do in the source. -/
def calcRows : List (List String) → Int → Int → Except Fail (List (List String) × Int × Int)
  | [], sum, nb => .ok ([], sum, nb)
  | r :: rs, sum, nb =>
    match rowTotal r with
    | .error e => .error e
    | .ok (total, qty, item) =>
      match calcRows rs (sum + total) (if item = "Ball Pen" then nb + qty else nb) with
      | .error e => .error e
      | .ok (rest, s, n) => .ok ((r ++ [intToFloatString total]) :: rest, s, n)

/-- The two rows appended at the end of `calculate` (source lines 240–241):
`{"", "", "", "Sum", "", intToFloatString(sum)}` and
`{"", "", "", "Ball Pens", fmt.Sprint(nb), ""}`. -/
def summaryRows (sum nb : Int) : List (List String) :=
  [["", "", "", "Sum", "", intToFloatString sum],
   ["", "", "", "Ball Pens", toString nb, ""]]

/-- Models `calculate` (source lines 179–245): the header row (index 0, when
present) gets a `"Total"` label appended; every later row is processed by
the loop body (`calcRows`); finally the two summary rows are appended. -/
def calculate (rows : List (List String)) : Except Fail (List (List String)) :=
  match rows with
  | [] => .ok (summaryRows 0 0)
  | header :: dataRows =>
    match calcRows dataRows 0 0 with
    | .error e => .error e
    | .ok (out, s, n) => .ok ((header ++ ["Total"]) :: (out ++ summaryRows s n))

/-- Models the data flow of `main`: `writeOrders` receives a table only
when `calculate` returns; a fatal abort inside `calculate` means no output
file is ever produced. -/
def mainRows (rows : List (List String)) : Option (List (List String)) :=
  match calculate rows with
  | .ok out => some out
  | .error _ => none

/-- The file-system outcomes `writeOrders` can encounter, each `none` when
the operation succeeds and `some msg` when it fails: `os.Create`, the
buffered write/flush performed by `w.WriteAll`, and `f.Close`. -/
structure WriteEnv where
  createErr : Option String
  writeAllErr : Option String
  closeErr : Option String
  deriving DecidableEq, Repr

/-- Result of a `writeOrders` run: `fatal` models `log.Fatalf`, `done` a
normal return. -/
inductive WriteOutcome where
  | fatal (msg : String)
  | done
  deriving DecidableEq, Repr

/-- Models the control flow of `writeOrders` (source lines 263–281) over
abstract file-system outcomes: a failed `os.Create` is fatal before the
`defer` is registered; then `err = w.WriteAll(rows)` runs but its result
(`env.writeAllErr`) is assigned and never checked; the deferred `f.Close`
runs last and a failed close is fatal. -/
def writeOrders (name : String) (env : WriteEnv) : WriteOutcome :=
  match env.createErr with
  | some e => .fatal ("Cannot open " ++ name ++ ": " ++ e ++ "\n")
  | none =>
    match env.closeErr with
    | some e => .fatal ("Cannot close " ++ name ++ ": " ++ e ++ "\n")
    | none => .done

/-- Whether an aborting computation in fact returned. -/
def isOkE {α : Type} : Except Fail α → Bool
  | .ok _ => true
  | .error _ => false

/-- The total (`price * qty`) computed by the loop body for a row,
defaulting to `0` on rows where the body aborts.  Projection of
`rowTotal`, used to state the accumulator sums. -/
def rowTotalD (r : List String) : Int :=
  match rowTotal r with
  | .ok (t, _, _) => t
  | .error _ => 0

/-- The parsed quantity of a row, defaulting to `0` on aborting rows. -/
def rowQtyD (r : List String) : Int :=
  match rowTotal r with
  | .ok (_, q, _) => q
  | .error _ => 0

/-- The item name read by the loop body, defaulting to `""`. -/
def rowItemD (r : List String) : String :=
  match rowTotal r with
  | .ok (_, _, it) => it
  | .error _ => ""

/-- The header row of the running example of the source file. -/
def exHeader : List String := ["Date", "Order ID", "Order Item", "Unit Price", "Quantity"]

/-- First data row of the source's running example. -/
def exRow1 : List String := ["2017-11-17", "1", "Ball Pen", "1.99", "50"]

/-- Second data row of the source's running example. -/
def exRow2 : List String := ["2017-11-17", "2", "Notebook", "12.99", "10"]

/-- A row whose item name differs from `"Ball Pen"` only in case. -/
def exRowLower : List String := ["2017-11-18", "2", "ball pen", "1.00", "7"]

/-- A row whose UnitPrice cell does not parse as a number. -/
def exRowBad : List String := ["2017-11-18", "4", "Pencil", "abc", "100"]

-- Concrete evaluations pinning the embedding to the source's documented
-- behaviour (the expected-output block at source lines 284–298).
example : atoi "50" = some 50 := by decide
example : atoi "+7" = some 7 := by decide
example : atoi "-7" = some (-7) := by decide
example : atoi "" = none := by decide
example : atoi "1.99" = none := by decide
example : stripDots "1.99" = "199" := by decide
example : atoi (stripDots "1.99") = some 199 := by decide
example : intToFloatString 9900 = "99.0" := by decide
example : intToFloatString 10005 = "100.5" := by decide
example : intToFloatString 22940 = "229.40" := by decide
example : rowTotal ["2017-11-17", "1", "Ball Pen", "1.99", "50"] = .ok (9950, 50, "Ball Pen") := rfl

example : calculate [["Date", "Order ID", "Order Item", "Unit Price", "Quantity"],
    ["2017-11-17", "1", "Ball Pen", "1.99", "50"],
    ["2017-11-17", "2", "Notebook", "12.99", "10"]] =
  .ok [["Date", "Order ID", "Order Item", "Unit Price", "Quantity", "Total"],
    ["2017-11-17", "1", "Ball Pen", "1.99", "50", "99.50"],
    ["2017-11-17", "2", "Notebook", "12.99", "10", "129.90"],
    ["", "", "", "Sum", "", "229.40"],
    ["", "", "", "Ball Pens", "50", ""]] := rfl

/-- A successful Go cell access returns exactly the cell at that index. -/
theorem getCell_ok_elim {r : List String} {j : Nat} {s : String}
    (h : getCell r j = .ok s) : r.get? j = some s := by
  unfold getCell at h
  split at h
  · rename_i s' heq
    injection h with h
    subst h
    exact heq
  · simp at h

/-- Inversion of a successful loop body: the item is cell 2, the total is
the product of the parsed cent price (cell 3, dots stripped) and the parsed
quantity (cell 4). -/
theorem rowTotal_ok_elim {r : List String} {t q : Int} {it : String}
    (h : rowTotal r = .ok (t, q, it)) :
    r.get? 2 = some it ∧
      ∃ ps qs p, r.get? 3 = some ps ∧ r.get? 4 = some qs ∧
        atoi (stripDots ps) = some p ∧ atoi qs = some q ∧ t = p * q := by
  unfold rowTotal at h
  repeat' split at h
  all_goals try (simp at h)
  obtain ⟨ht, hq, hit⟩ := h
  subst ht hq hit
  rename_i _x4 item heq2 _x3 ps heq3 _x2 price hprice _x1 qs heq4 _x0 qty hqty
  exact ⟨getCell_ok_elim heq2, ps, qs, price, getCell_ok_elim heq3,
    getCell_ok_elim heq4, hprice, hqty, rfl⟩

theorem rowTotalD_eq {r : List String} {t q : Int} {it : String}
    (h : rowTotal r = .ok (t, q, it)) : rowTotalD r = t := by
  simp [rowTotalD, h]

theorem rowQtyD_eq {r : List String} {t q : Int} {it : String}
    (h : rowTotal r = .ok (t, q, it)) : rowQtyD r = q := by
  simp [rowQtyD, h]

theorem rowItemD_eq {r : List String} {t q : Int} {it : String}
    (h : rowTotal r = .ok (t, q, it)) : rowItemD r = it := by
  simp [rowItemD, h]

/-- Full characterisation of a successful run of the data-row loop: every
row's body returned, the output rows are the input rows each extended with
their formatted total, the final sum is the initial sum plus all row
totals, and the final ball-pen count is the initial count plus the
quantities of the rows whose item name is exactly `"Ball Pen"`. -/
theorem calcRows_ok_elim (rs : List (List String)) (sum nb : Int)
    (out : List (List String)) (s n : Int)
    (h : calcRows rs sum nb = .ok (out, s, n)) :
    (∀ r ∈ rs, isOkE (rowTotal r) = true) ∧
    out = rs.map (fun r => r ++ [intToFloatString (rowTotalD r)]) ∧
    s = sum + (rs.map rowTotalD).sum ∧
    n = nb + ((rs.filter (fun r => rowItemD r == "Ball Pen")).map rowQtyD).sum := by
  induction rs generalizing sum nb out s n with
  | nil =>
    unfold calcRows at h
    simp only [Except.ok.injEq, Prod.mk.injEq] at h
    obtain ⟨h1, h2, h3⟩ := h
    subst h1 h2 h3
    simp
  | cons r rs ih =>
    unfold calcRows at h
    split at h
    · simp at h
    rename_i t qty it hr
    split at h
    · simp at h
    rename_i rest s' n' hc
    simp only [Except.ok.injEq, Prod.mk.injEq] at h
    obtain ⟨h1, h2, h3⟩ := h
    subst h1 h2 h3
    obtain ⟨hok, hout, hs, hn⟩ := ih _ _ _ _ _ hc
    refine ⟨?_, ?_, ?_, ?_⟩
    · intro r' hr'
      rcases hr' with _ | hr'
      · simp [isOkE, hr]
      · exact hok _ (by assumption)
    · rw [List.map_cons, hout, rowTotalD_eq hr]
    · rw [hs, List.map_cons, List.sum_cons, rowTotalD_eq hr, add_assoc]
    · rw [hn, List.filter_cons, rowItemD_eq hr]
      by_cases hbp : it = "Ball Pen"
      · simp [hbp, rowQtyD_eq hr, add_assoc]
      · simp [hbp]

/-- A failing Go cell access is a panic on a missing index. -/
theorem getCell_error_elim {r : List String} {j : Nat} {e : Fail}
    (h : getCell r j = .error e) : e = .panic := by
  unfold getCell at h
  split at h
  · simp at h
  · injection h with h
    exact h.symm

/-- The data-row loop returns exactly when every row's body returns. -/
theorem calcRows_isOk_iff (rs : List (List String)) (sum nb : Int) :
    isOkE (calcRows rs sum nb) = true ↔ ∀ r ∈ rs, isOkE (rowTotal r) = true := by
  induction rs generalizing sum nb with
  | nil => simp [calcRows, isOkE]
  | cons r rs ih =>
    unfold calcRows
    split
    · rename_i e hr
      constructor
      · intro h
        simp [isOkE] at h
      · intro hall
        have hmem := hall r (List.mem_cons_self r rs)
        rw [hr] at hmem
        simp [isOkE] at hmem
    rename_i t qty it hr
    split
    · rename_i e hc
      constructor
      · intro h
        simp [isOkE] at h
      · intro hall
        have h2 : ∀ r' ∈ rs, isOkE (rowTotal r') = true :=
          fun r' hm => hall r' (List.mem_cons_of_mem _ hm)
        have h3 := (ih (sum + t) (if it = "Ball Pen" then nb + qty else nb)).mpr h2
        rw [hc] at h3
        simp [isOkE] at h3
    · rename_i rest s' n' hc
      have hall : ∀ r' ∈ rs, isOkE (rowTotal r') = true :=
        (ih (sum + t) (if it = "Ball Pen" then nb + qty else nb)).mp
          (by rw [hc]; rfl)
      constructor
      · intro _ r' hm
        rcases List.mem_cons.mp hm with h' | hm'
        · subst h'
          simp [isOkE, hr]
        · exact hall r' hm'
      · intro _
        rfl

/-- A failing run of the data-row loop fails with the error of the first
row whose body aborts; all rows before it were processed successfully. -/
theorem calcRows_error_elim (rs : List (List String)) (sum nb : Int) (e : Fail)
    (h : calcRows rs sum nb = .error e) :
    ∃ i r, rs.get? i = some r ∧ rowTotal r = .error e ∧
      ∀ j r', j < i → rs.get? j = some r' → isOkE (rowTotal r') = true := by
  induction rs generalizing sum nb with
  | nil => simp [calcRows] at h
  | cons r rs ih =>
    unfold calcRows at h
    split at h
    · rename_i e' hr
      injection h with h
      subst h
      refine ⟨0, r, rfl, hr, ?_⟩
      intro j r' hj _
      omega
    rename_i t qty it hr
    split at h
    · rename_i e' hc
      injection h with h
      subst h
      obtain ⟨i, rr, hget, herr, hprev⟩ := ih _ _ hc
      refine ⟨i + 1, rr, by simpa using hget, herr, ?_⟩
      intro j r' hj hget'
      cases j with
      | zero =>
        simp only [List.get?_cons_zero, Option.some.injEq] at hget'
        subst hget'
        simp [isOkE, hr]
      | succ j =>
        exact hprev j r' (by omega) (by simpa using hget')
    · simp at h

/-- A fatal abort of the loop body carries the failing row's item name
(cell 2) in its message, after either the price or the quantity text. -/
theorem rowTotal_fatal_elim {r : List String} {msg : String}
    (h : rowTotal r = .error (.fatal msg)) :
    ∃ item tail, r.get? 2 = some item ∧
      (msg = "Cannot retrieve price of " ++ (item ++ tail) ∨
       msg = "Cannot retrieve quantity of " ++ (item ++ tail)) := by
  unfold rowTotal at h
  repeat' split at h
  · rename_i _x e' heq
    have hp := getCell_error_elim heq
    subst hp
    injection h with h
    simp at h
  · rename_i _x e' heq
    have hp := getCell_error_elim heq
    subst hp
    injection h with h
    simp at h
  · rename_i _x1 item hitem _x2 ps hps _x3 hnone
    refine ⟨item, ": " ++ atoiErr (stripDots ps) ++ "\n", getCell_ok_elim hitem, Or.inl ?_⟩
    injection h with h
    injection h with h
    rw [← h]
    simp [String.append_assoc]
  · rename_i _x e' heq
    have hp := getCell_error_elim heq
    subst hp
    injection h with h
    simp at h
  · rename_i _x1 item hitem _x2 ps hps _x3 p hsome _x4 qs hqs _x5 hnone
    refine ⟨item, ": " ++ atoiErr qs ++ "\n", getCell_ok_elim hitem, Or.inr ?_⟩
    injection h with h
    injection h with h
    rw [← h]
    simp [String.append_assoc]
  · simp at h

theorem isOkE_elim {α : Type} {x : Except Fail α} (h : isOkE x = true) :
    ∃ a, x = .ok a := by
  cases x with
  | ok a => exact ⟨a, rfl⟩
  | error e => simp [isOkE] at h

/-- Full characterisation of a successful `calculate` on a non-empty
table: every data row parsed, and the output is the extended header, the
extended data rows, and the two summary rows carrying the grand total and
the ball-pen count. -/
theorem calculate_ok_elim (header : List String) (dataRows out : List (List String))
    (h : calculate (header :: dataRows) = .ok out) :
    (∀ r ∈ dataRows, isOkE (rowTotal r) = true) ∧
    out = (header ++ ["Total"]) ::
      (dataRows.map (fun r => r ++ [intToFloatString (rowTotalD r)]) ++
        summaryRows ((dataRows.map rowTotalD).sum)
          (((dataRows.filter (fun r => rowItemD r == "Ball Pen")).map rowQtyD).sum)) := by
  unfold calculate at h
  split at h
  · rename_i heq
    simp at heq
  rename_i hd' drs' hcons
  injection hcons with hcons1 hcons2
  subst hcons1 hcons2
  split at h
  · simp at h
  rename_i mid s n hc
  injection h with h
  obtain ⟨hok, hout, hs, hn⟩ := calcRows_ok_elim _ _ _ _ _ _ hc
  subst hout hs hn
  rw [← h]
  refine ⟨hok, ?_⟩
  simp

/-- C1: for every data row of the input table (header and summary rows
excluded), the Total cell appended by `calculate` equals UnitPrice times
Quantity computed exactly in integer cents: the cent value parsed from the
UnitPrice string (column 3, decimal point stripped) multiplied by the
integer Quantity (column 4), with all arithmetic over `Int` — no
floating-point number appears anywhere in the computation. -/
theorem calculate_C1 (header : List String) (dataRows out : List (List String))
    (h : calculate (header :: dataRows) = .ok out) :
    ∀ i r, dataRows.get? i = some r →
      ∃ p q : Int,
        atoi (stripDots ((r.get? 3).getD "")) = some p ∧
        atoi ((r.get? 4).getD "") = some q ∧
        out.get? (i + 1) = some (r ++ [intToFloatString (p * q)]) := by
  obtain ⟨hok, hout⟩ := calculate_ok_elim _ _ _ h
  intro i r hi
  have hmem : r ∈ dataRows := List.get?_mem hi
  obtain ⟨⟨t, q, it⟩, hr⟩ := isOkE_elim (hok r hmem)
  obtain ⟨h2, ps, qs, p, h3, h4, hp, hq, ht⟩ := rowTotal_ok_elim hr
  refine ⟨p, q, ?_, ?_, ?_⟩
  · rw [h3]
    exact hp
  · rw [h4]
    exact hq
  · subst hout
    rw [List.get?_cons_succ]
    have hlt : i < (dataRows.map (fun r => r ++ [intToFloatString (rowTotalD r)])).length := by
      rw [List.length_map]
      exact (List.get?_eq_some.mp hi).1
    rw [List.get?_append hlt, List.get?_map, hi]
    simp only [Option.map_some']
    rw [rowTotalD_eq hr, ht]

theorem calculate_C1_witness :
    ∃ p q : Int,
      atoi (stripDots ((["2017-11-17", "2", "Notebook", "12.99", "10"].get? 3).getD "")) = some p ∧
      atoi ((["2017-11-17", "2", "Notebook", "12.99", "10"].get? 4).getD "") = some q ∧
      ([["Date", "Order ID", "Order Item", "Unit Price", "Quantity", "Total"],
        ["2017-11-17", "2", "Notebook", "12.99", "10", "129.90"],
        ["", "", "", "Sum", "", "129.90"],
        ["", "", "", "Ball Pens", "0", ""]].get? (0 + 1)) =
        some (["2017-11-17", "2", "Notebook", "12.99", "10"] ++ [intToFloatString (p * q)]) :=
  calculate_C1 ["Date", "Order ID", "Order Item", "Unit Price", "Quantity"]
    [["2017-11-17", "2", "Notebook", "12.99", "10"]] _ rfl 0 _ rfl

/-- C2 as amended: `calculate` appends exactly two summary rows at the end
of every output table; the first carries the grand total — the formatted
sum of the per-row totals of the data rows — in the Total column
(index 5), the second the ball-pen count — the sum of the parsed
quantities of the data rows whose ItemName cell is exactly `"Ball Pen"` —
in the Quantity column (index 4), but both place their text label
(`"Sum"` respectively `"Ball Pens"`) in the UnitPrice column (index 3) —
not in the ItemName column (index 2) — and all other cells of the two
rows are empty strings. -/
theorem calculate_C2 (rows out : List (List String)) (h : calculate rows = .ok out) :
    ∃ front : List (List String), front.length = rows.length ∧
      out = front ++
        [["", "", "", "Sum", "",
           intToFloatString (((rows.drop 1).map rowTotalD).sum)],
         ["", "", "", "Ball Pens",
           toString (((((rows.drop 1)).filter
             (fun r => (r.get? 2).getD "" == "Ball Pen")).map rowQtyD).sum), ""]] := by
  cases rows with
  | nil =>
    unfold calculate at h
    injection h with h
    exact ⟨[], rfl, by rw [← h]; rfl⟩
  | cons header dataRows =>
    obtain ⟨hok, hout⟩ := calculate_ok_elim _ _ _ h
    have hfil : dataRows.filter (fun r => rowItemD r == "Ball Pen") =
        dataRows.filter (fun r => (r.get? 2).getD "" == "Ball Pen") := by
      apply List.filter_congr
      intro r hm
      obtain ⟨⟨t, q, it⟩, hr⟩ := isOkE_elim (hok r hm)
      obtain ⟨h2, -⟩ := rowTotal_ok_elim hr
      rw [rowItemD_eq hr, h2]
      rfl
    refine ⟨(header ++ ["Total"]) ::
        dataRows.map (fun r => r ++ [intToFloatString (rowTotalD r)]), by simp, ?_⟩
    rw [hout, hfil]
    simp [summaryRows]

/-- C2 as stated is false: on the source's example table the first
appended summary row has an empty ItemName cell (index 2); its `"Sum"`
label sits in the UnitPrice column (index 3). -/
theorem calculate_C2_counterexample :
    ((calculate [exHeader, exRow1]).toOption.bind
      (fun out => (out.get? 2).map (fun r => (r.getD 2 "?", r.getD 3 "?")))) =
      some ("", "Sum") ∧ ("" : String) ≠ "Sum" := by
  constructor
  · rfl
  · decide

theorem calculate_C2_witness :
    ∃ front : List (List String),
      front.length = ([exHeader, exRow1] : List (List String)).length ∧
      [["Date", "Order ID", "Order Item", "Unit Price", "Quantity", "Total"],
       ["2017-11-17", "1", "Ball Pen", "1.99", "50", "99.50"],
       ["", "", "", "Sum", "", "99.50"],
       ["", "", "", "Ball Pens", "50", ""]] =
        front ++
          [["", "", "", "Sum", "",
             intToFloatString (((([exHeader, exRow1] : List (List String)).drop 1).map
               rowTotalD).sum)],
           ["", "", "", "Ball Pens",
             toString ((((([exHeader, exRow1] : List (List String)).drop 1).filter
               (fun r => (r.get? 2).getD "" == "Ball Pen")).map rowQtyD).sum), ""]] :=
  calculate_C2 [exHeader, exRow1] _ rfl

/-- C3: for every input table whose data rows all parse, the grand total
written into the first appended summary row is the formatted sum, over all
data rows, of the per-row totals computed for those rows. -/
theorem calculate_C3 (header : List String) (dataRows out : List (List String))
    (h : calculate (header :: dataRows) = .ok out) :
    out.get? (dataRows.length + 1) =
      some ["", "", "", "Sum", "", intToFloatString ((dataRows.map rowTotalD).sum)] := by
  obtain ⟨-, hout⟩ := calculate_ok_elim _ _ _ h
  subst hout
  rw [List.get?_cons_succ, List.get?_append_right (by simp)]
  simp [summaryRows]

theorem calculate_C3_witness :
    ([[ "Date", "Order ID", "Order Item", "Unit Price", "Quantity", "Total"],
      ["2017-11-17", "1", "Ball Pen", "1.99", "50", "99.50"],
      ["2017-11-17", "2", "Notebook", "12.99", "10", "129.90"],
      ["", "", "", "Sum", "", "229.40"],
      ["", "", "", "Ball Pens", "50", ""]].get?
        (([exRow1, exRow2] : List (List String)).length + 1)) =
      some ["", "", "", "Sum", "",
        intToFloatString (([exRow1, exRow2].map rowTotalD).sum)] ∧
    intToFloatString (([exRow1, exRow2].map rowTotalD).sum) = intToFloatString 22940 ∧
    intToFloatString 22940 = "229.40" :=
  ⟨calculate_C3 exHeader [exRow1, exRow2] _ rfl, rfl, rfl⟩

/-- C4: the count written into the second appended summary row is the sum
of the parsed quantities over exactly those data rows whose ItemName cell
(index 2) is the string `"Ball Pen"`, by exact case-sensitive string
equality; all other rows contribute nothing. -/
theorem calculate_C4 (header : List String) (dataRows out : List (List String))
    (h : calculate (header :: dataRows) = .ok out) :
    out.get? (dataRows.length + 2) =
      some ["", "", "", "Ball Pens",
        toString (((dataRows.filter
          (fun r => (r.get? 2).getD "" == "Ball Pen")).map rowQtyD).sum), ""] := by
  obtain ⟨hok, hout⟩ := calculate_ok_elim _ _ _ h
  have hfil : dataRows.filter (fun r => rowItemD r == "Ball Pen") =
      dataRows.filter (fun r => (r.get? 2).getD "" == "Ball Pen") := by
    apply List.filter_congr
    intro r hm
    obtain ⟨⟨t, q, it⟩, hr⟩ := isOkE_elim (hok r hm)
    obtain ⟨h2, -⟩ := rowTotal_ok_elim hr
    rw [rowItemD_eq hr, h2]
    rfl
  subst hout
  rw [show dataRows.length + 2 = (dataRows.length + 1) + 1 from rfl,
    List.get?_cons_succ, List.get?_append_right (by simp), hfil]
  simp [summaryRows]

theorem calculate_C4_witness :
    ([[ "Date", "Order ID", "Order Item", "Unit Price", "Quantity", "Total"],
      ["2017-11-17", "1", "Ball Pen", "1.99", "50", "99.50"],
      ["2017-11-18", "2", "ball pen", "1.00", "7", "7.0"],
      ["", "", "", "Sum", "", "106.50"],
      ["", "", "", "Ball Pens", "50", ""]].get?
        (([exRow1, exRowLower] : List (List String)).length + 2)) =
      some ["", "", "", "Ball Pens",
        toString ((([exRow1, exRowLower].filter
          (fun r => (r.get? 2).getD "" == "Ball Pen")).map rowQtyD).sum), ""] :=
  calculate_C4 exHeader [exRow1, exRowLower] _ rfl

/-- The loop body returns exactly when the row's UnitPrice cell (read as
`""` when absent, decimal point stripped) and Quantity cell both parse:
`atoi ""` fails, so a row too short for the Go indexing (which panics) is
also a row whose cells fail to parse. -/
theorem rowTotal_isOk_iff (r : List String) :
    isOkE (rowTotal r) = true ↔
      (atoi (stripDots ((r.get? 3).getD ""))).isSome = true ∧
      (atoi ((r.get? 4).getD "")).isSome = true := by
  constructor
  · intro h
    obtain ⟨⟨t, q, it⟩, hr⟩ := isOkE_elim h
    obtain ⟨h2, ps, qs, p, h3, h4, hp, hq, ht⟩ := rowTotal_ok_elim hr
    rw [h3, h4]
    simp [hp, hq]
  · rintro ⟨hp, hq⟩
    rcases hget4 : r.get? 4 with _ | qs
    · rw [hget4] at hq
      simp [show atoi "" = none from rfl] at hq
    have hlen : 4 < r.length := (List.get?_eq_some.mp hget4).1
    rcases hget2 : r.get? 2 with _ | item
    · rw [List.get?_eq_none] at hget2
      omega
    rcases hget3 : r.get? 3 with _ | ps
    · rw [List.get?_eq_none] at hget3
      omega
    rw [hget3] at hp
    rw [hget4] at hq
    simp only [Option.getD_some] at hp hq
    obtain ⟨p, hp'⟩ := Option.isSome_iff_exists.mp hp
    obtain ⟨q, hq'⟩ := Option.isSome_iff_exists.mp hq
    rw [List.get?_eq_getElem?] at hget2 hget3 hget4
    simp [rowTotal, getCell, hget2, hget3, hget4, hp', hq', isOkE]

/-- `calculate` on a non-empty table returns exactly when its data-row
loop does. -/
theorem calculate_isOk_eq (header : List String) (dataRows : List (List String)) :
    isOkE (calculate (header :: dataRows)) = isOkE (calcRows dataRows 0 0) := by
  unfold calculate
  rcases hc : calcRows dataRows 0 0 with e | ⟨rest, s, n⟩ <;>
    simp [isOkE, hc]

/-- C5: `calculate` succeeds on a table exactly when every data row's
UnitPrice cell (decimal separator removed) and Quantity cell parse as
decimal integers; the first row whose cell fails aborts the run fatally
with a message containing that row's ItemName, every earlier row having
been processed; and on any abort `main` never reaches `writeOrders`, so no
output is produced. -/
theorem calculate_C5 (header : List String) (dataRows : List (List String)) :
    (isOkE (calculate (header :: dataRows)) = true ↔
       ∀ r ∈ dataRows,
         (atoi (stripDots ((r.get? 3).getD ""))).isSome = true ∧
         (atoi ((r.get? 4).getD "")).isSome = true) ∧
    (∀ msg, calculate (header :: dataRows) = .error (.fatal msg) →
       ∃ i r item, dataRows.get? i = some r ∧ r.get? 2 = some item ∧
         (∀ j r', j < i → dataRows.get? j = some r' → isOkE (rowTotal r') = true) ∧
         ∃ pre post, msg = pre ++ (item ++ post)) ∧
    (∀ e, calculate (header :: dataRows) = .error e →
       mainRows (header :: dataRows) = none) := by
  refine ⟨?_, ?_, ?_⟩
  · rw [calculate_isOk_eq, calcRows_isOk_iff]
    exact ⟨fun h r hm => (rowTotal_isOk_iff r).mp (h r hm),
           fun h r hm => (rowTotal_isOk_iff r).mpr (h r hm)⟩
  · intro msg h
    have hc : calcRows dataRows 0 0 = .error (.fatal msg) := by
      unfold calculate at h
      split at h
      · rename_i heq
        simp at heq
      rename_i hd' drs' hcons
      injection hcons with h1 h2
      subst h1 h2
      split at h
      · rename_i e hc'
        injection h with h
        rw [h] at hc'
        exact hc'
      · simp at h
    obtain ⟨i, r, hget, herr, hprev⟩ := calcRows_error_elim _ _ _ _ hc
    obtain ⟨item, tail, h2, hmsg⟩ := rowTotal_fatal_elim herr
    rcases hmsg with hmsg | hmsg
    · exact ⟨i, r, item, hget, h2, hprev, "Cannot retrieve price of ", tail, hmsg⟩
    · exact ⟨i, r, item, hget, h2, hprev, "Cannot retrieve quantity of ", tail, hmsg⟩
  · intro e he
    unfold mainRows
    rw [he]

theorem calculate_C5_witness :
    isOkE (calculate [exHeader, exRow1]) = true ∧
    mainRows [exHeader, exRowBad] = none :=
  ⟨(calculate_C5 exHeader [exRow1]).1.mpr (by decide),
   (calculate_C5 exHeader [exRowBad]).2.2 _ rfl⟩

/-- C6: for every non-negative integer cent value `n`, the string produced
by `intToFloatString` is the decimal digits of `n` divided by `100`, a
period, then the decimal digits of `n` modulo `100` with no zero padding;
in particular `9900` formats as `"99.0"` (not `"99.00"`) and `10005`,
whose fractional part is below `10`, formats with a single fraction digit
as `"100.5"`. -/
theorem intToFloatString_C6 :
    (∀ n : Int, 0 ≤ n →
      intToFloatString n = toString (n / 100) ++ "." ++ toString (n % 100)) ∧
    intToFloatString 9900 = "99.0" ∧
    intToFloatString 10005 = "100.5" := by
  refine ⟨?_, rfl, rfl⟩
  intro n hn
  unfold intToFloatString
  rw [Int.tdiv_eq_ediv hn (by decide)]
  have hmod : n - n / 100 * 100 = n % 100 := by omega
  rw [hmod]

theorem intToFloatString_C6_witness :
    (0 : Int) ≤ 9900 ∧
    intToFloatString 9900 =
      toString ((9900 : Int) / 100) ++ "." ++ toString ((9900 : Int) % 100) :=
  ⟨by decide, intToFloatString_C6.1 9900 (by decide)⟩

/-- C7: on a table whose header and data rows each have exactly 5 cells
and whose data rows all parse, every output data row has exactly 6 cells
(its row extended by the one appended Total cell) and the header grows
from 5 to 6 cells by the appended `"Total"` label. -/
theorem calculate_C7 (header : List String) (dataRows out : List (List String))
    (hh : header.length = 5) (hd : ∀ r ∈ dataRows, r.length = 5)
    (h : calculate (header :: dataRows) = .ok out) :
    out.get? 0 = some (header ++ ["Total"]) ∧
    (header ++ ["Total"]).length = 6 ∧
    (∀ i r, dataRows.get? i = some r →
      ∃ row, out.get? (i + 1) = some row ∧
        row = r ++ [intToFloatString (rowTotalD r)] ∧ row.length = 6) := by
  obtain ⟨hok, hout⟩ := calculate_ok_elim _ _ _ h
  subst hout
  refine ⟨rfl, by simp [hh], ?_⟩
  intro i r hi
  have hlt : i < (dataRows.map (fun r => r ++ [intToFloatString (rowTotalD r)])).length := by
    rw [List.length_map]
    exact (List.get?_eq_some.mp hi).1
  refine ⟨r ++ [intToFloatString (rowTotalD r)], ?_, rfl, ?_⟩
  · rw [List.get?_cons_succ, List.get?_append hlt, List.get?_map, hi]
    rfl
  · have h5 := hd r (List.get?_mem hi)
    simp [h5]

theorem calculate_C7_witness :
    ([[ "Date", "Order ID", "Order Item", "Unit Price", "Quantity", "Total"],
      ["2017-11-17", "1", "Ball Pen", "1.99", "50", "99.50"],
      ["", "", "", "Sum", "", "99.50"],
      ["", "", "", "Ball Pens", "50", ""]].get? 0) = some (exHeader ++ ["Total"]) ∧
    (exHeader ++ ["Total"]).length = 6 ∧
    (∀ i r, ([exRow1] : List (List String)).get? i = some r →
      ∃ row,
        ([[ "Date", "Order ID", "Order Item", "Unit Price", "Quantity", "Total"],
          ["2017-11-17", "1", "Ball Pen", "1.99", "50", "99.50"],
          ["", "", "", "Sum", "", "99.50"],
          ["", "", "", "Ball Pens", "50", ""]].get? (i + 1)) = some row ∧
        row = r ++ [intToFloatString (rowTotalD r)] ∧ row.length = 6) :=
  calculate_C7 exHeader [exRow1] _ (by decide) (by decide) rfl

/-- C8: the integer cent value used for a row's UnitPrice is obtained by
deleting every `"."` from the UnitPrice string and parsing the remaining
text as a decimal integer, so the number and position of decimal points is
ignored entirely: a price written `"2.5"` parses as 25 cents (not 250),
while `"2.50"` parses as 250 cents. -/
theorem atoi_C8 :
    (∀ s t : String, atoi (stripDots (s ++ "." ++ t)) = atoi (stripDots (s ++ t))) ∧
    atoi (stripDots "2.5") = some 25 ∧
    atoi (stripDots "2.50") = some 250 ∧
    rowTotal ["2017-11-20", "9", "Marker", "2.5", "1"] = .ok (25, 1, "Marker") := by
  refine ⟨?_, rfl, rfl, rfl⟩
  intro s t
  have hs : stripDots (s ++ "." ++ t) = stripDots (s ++ t) := by
    unfold stripDots
    rw [String.data_append, String.data_append, String.data_append]
    simp [List.filter_append, show ("." : String).data = ['.'] from rfl]
  rw [hs]

theorem atoi_C8_witness :
    atoi (stripDots ("2" ++ "." ++ "5")) = atoi (stripDots ("2" ++ "5")) :=
  atoi_C8.1 "2" "5"

/-- C9 (behaviour actually implemented): `writeOrders` aborts fatally when
the output file cannot be created and when it cannot be closed, but the
error returned by `w.WriteAll` — the buffered write/flush — is assigned to
`err` and never checked (source line 280), so a failed write or flush is
silently ignored and the function returns normally, contradicting the
claim that it never silently succeeds after a failed write or flush. -/
theorem writeOrders_C9 :
    (∀ (name e : String) (env : WriteEnv), env.createErr = some e →
        writeOrders name env = .fatal ("Cannot open " ++ name ++ ": " ++ e ++ "\n")) ∧
    (∀ (name e : String) (env : WriteEnv), env.createErr = none → env.closeErr = some e →
        writeOrders name env = .fatal ("Cannot close " ++ name ++ ": " ++ e ++ "\n")) ∧
    writeOrders "ordersReport.csv"
      ⟨none, some "write error: no space left on device", none⟩ = .done := by
  refine ⟨?_, ?_, rfl⟩
  · intro name e env hc
    unfold writeOrders
    rw [hc]
  · intro name e env hc hcl
    unfold writeOrders
    rw [hc, hcl]

theorem writeOrders_C9_witness :
    (⟨some "permission denied", none, none⟩ : WriteEnv).createErr = some "permission denied" ∧
    writeOrders "ordersReport.csv" ⟨some "permission denied", none, none⟩ =
      .fatal ("Cannot open " ++ "ordersReport.csv" ++ ": " ++ "permission denied" ++ "\n") :=
  ⟨rfl, writeOrders_C9.1 "ordersReport.csv" "permission denied" _ rfl⟩

/-- C10: `calculate` never alters a cell present in the input: every input
row is a prefix of the output row at the same index (the header gains
`"Total"`, each data row gains its total, in the same order), and the
output has exactly two more rows than the input — the two appended
summary rows. -/
theorem calculate_C10 (rows out : List (List String)) (h : calculate rows = .ok out) :
    out.length = rows.length + 2 ∧
    ∀ i r, rows.get? i = some r → ∃ extra, out.get? i = some (r ++ extra) := by
  cases rows with
  | nil =>
    unfold calculate at h
    injection h with h
    rw [← h]
    constructor
    · rfl
    · intro i r hi
      simp at hi
  | cons header dataRows =>
    obtain ⟨hok, hout⟩ := calculate_ok_elim _ _ _ h
    subst hout
    constructor
    · simp [summaryRows]
    · intro i r hi
      cases i with
      | zero =>
        simp only [List.get?_cons_zero, Option.some.injEq] at hi
        subst hi
        exact ⟨["Total"], rfl⟩
      | succ j =>
        rw [List.get?_cons_succ] at hi
        have hlt : j < (dataRows.map (fun r => r ++ [intToFloatString (rowTotalD r)])).length := by
          rw [List.length_map]
          exact (List.get?_eq_some.mp hi).1
        refine ⟨[intToFloatString (rowTotalD r)], ?_⟩
        rw [List.get?_cons_succ, List.get?_append hlt, List.get?_map, hi]
        rfl

theorem calculate_C10_witness :
    ([[ "Date", "Order ID", "Order Item", "Unit Price", "Quantity", "Total"],
      ["2017-11-17", "1", "Ball Pen", "1.99", "50", "99.50"],
      ["", "", "", "Sum", "", "99.50"],
      ["", "", "", "Ball Pens", "50", ""]] : List (List String)).length =
        ([exHeader, exRow1] : List (List String)).length + 2 ∧
    ∀ i r, ([exHeader, exRow1] : List (List String)).get? i = some r →
      ∃ extra,
        ([[ "Date", "Order ID", "Order Item", "Unit Price", "Quantity", "Total"],
          ["2017-11-17", "1", "Ball Pen", "1.99", "50", "99.50"],
          ["", "", "", "Sum", "", "99.50"],
          ["", "", "", "Ball Pens", "50", ""]] : List (List String)).get? i =
          some (r ++ extra) :=
  calculate_C10 [exHeader, exRow1] _ rfl

end Spreadsheet
